import Mathlib

/-!
Shallow embedding of the editing state machine of `src/main.rs` (todo_rust):
the todo data model, cursor and edit-buffer operations, and the mode/command
dispatcher of `run_app`, together with proofs of the specification's claims.

Modelling conventions:
* Rust `String` text is modelled as `List Char` and byte offsets as indices
  into that list (the spec restricts attention to single-byte text; multi-byte
  boundary panics are out of scope per spec section 9).
* `target_row` and `target_column` are `i32` in the source; they are modelled
  as `Int`.  The conversions `as usize` applied to them only ever feed `Vec` /
  `String` indexing; a negative value sign-extends past `isize::MAX` and is
  therefore out of bounds for every real Rust collection, so the model treats
  a negative index as out of bounds directly.
* Rust panics (out-of-bounds `Vec`/`String` indexing, `usize` subtraction
  underflow under the default debug profile) are modelled as `Except.error`;
  a panic aborts the process, so no claim may silently cross one.
-/

namespace TodoRust

/-- `InputMode` of `src/main.rs` lines 22-25. -/
inductive InputMode where
  | normal
  | editing
deriving DecidableEq

/-- `TargetMode` of `src/main.rs` lines 27-31: which list is active. -/
inductive TargetMode where
  | daily
  | longTerm
deriving DecidableEq

/-- `Status` of `src/main.rs` lines 33-37. -/
inductive Status where
  | todo
  | done
deriving DecidableEq

/-- `TodoData` of `src/main.rs` lines 39-43: one todo entry. -/
structure TodoData where
  message : List Char
  status : Status
deriving DecidableEq

/-- `impl Default for TodoData`, lines 45-52: empty text, status `Todo`. -/
def TodoData.default : TodoData :=
  { message := [], status := Status.todo }

/-- `MoveCursorOperation` of lines 54-59. -/
inductive MoveCursorOperation where
  | right
  | left
  | up
  | down
deriving DecidableEq

/-- `App` of lines 61-75: the whole application state.
`input` is the edit buffer, `messages` the daily list,
`long_term_todo` the long-term list. -/
structure App where
  input : List Char
  input_mode : InputMode
  target_mode : TargetMode
  messages : List TodoData
  long_term_todo : List TodoData
  target_row : Int
  target_column : Int
deriving DecidableEq

/-- `impl Default for App`, lines 77-89: one empty entry in each list,
`Normal` mode, daily list active, cursor at the origin. -/
def App.default : App :=
  { input := []
    input_mode := InputMode.normal
    target_mode := TargetMode.daily
    messages := [TodoData.default]
    long_term_todo := [TodoData.default]
    target_row := 0
    target_column := 0 }

/-- The single failure value of the model.  `indexOutOfRange` models a Rust
index-out-of-bounds panic (`Vec` indexing/removal, `String::insert`/`remove`);
`subOverflow` models the `usize` subtraction underflow of
`prev_messages.len() - 1` on an empty list in `new_line`. -/
inductive Err where
  | indexOutOfRange
  | subOverflow
deriving DecidableEq

/-- `num::clamp` from the `num` crate as used at lines 148 and 154:
`if input < min { min } else if input > max { max } else { input }`. -/
def rustClamp (x lo hi : Int) : Int :=
  if x < lo then lo else if hi < x then hi else x

/-- Indexing `l[i]` for an `i32` index cast `as usize` (panic on a negative
index, which sign-extends out of range, or an index `≥` the length). -/
def listGet? (l : List TodoData) (i : Int) : Except Err TodoData :=
  if 0 ≤ i ∧ i.toNat < l.length then Except.ok (l.getD i.toNat TodoData.default)
  else Except.error Err.indexOutOfRange

/-- `App::get_messages`, lines 92-101: the active list.  The source's
two-armed match on `target_mode` is rendered as the equivalent test against
`Daily`. -/
def App.get_messages (a : App) : List TodoData :=
  if a.target_mode = TargetMode.daily then a.messages else a.long_term_todo

/-- Writing through `App::get_messages_mut`, lines 103-112: replace the
active list, leaving the inactive one untouched (same two-armed match,
rendered as a test against `Daily`). -/
def App.set_messages (a : App) (l : List TodoData) : App :=
  if a.target_mode = TargetMode.daily then { a with messages := l }
  else { a with long_term_todo := l }

/-- Run `f` on the active entry `get_messages()[target_row as usize]`,
propagating the panic when the row is out of bounds.  This is the indexing
step shared by most operations of `impl App`. -/
def withEntry (a : App) (f : TodoData → App) : Except Err App :=
  (listGet? a.get_messages a.target_row).bind (fun entry => Except.ok (f entry))

/-- `App::get_current_message`, lines 114-116: the text of the active entry
at `target_row` (panics when the row is out of bounds). -/
def App.get_current_message (a : App) : Except Err (List Char) :=
  (listGet? a.get_messages a.target_row).bind (fun d => Except.ok d.message)

/-- `App::push_message`, lines 118-121: clear the edit buffer and append the
entry to the active list. -/
def App.push_message (a : App) (new_entry : TodoData) : App :=
  ({ a with input := [] } : App).set_messages (a.get_messages ++ [new_entry])

/-- `App::add_char`, lines 123-129: insert the character into the edit buffer
at `target_column` (`String::insert` panics past the end), write the buffer
back into the active entry at `target_row` (`Vec` indexing panics out of
bounds), and advance the column. -/
def App.add_char (a : App) (new_char : Char) : Except Err App :=
  if a.target_column < 0 ∨ a.input.length < a.target_column.toNat then
    Except.error Err.indexOutOfRange
  else
    let input := a.input.insertIdx a.target_column.toNat new_char
    withEntry a (fun entry =>
      { a.set_messages (a.get_messages.set a.target_row.toNat
          { entry with message := input }) with
        input := input
        target_column := a.target_column + 1 })

/-- `App::remove_char`, lines 131-144: return unchanged when the buffer is
empty or `target_column <= 0`; otherwise delete the character at
`target_column - 1` (`String::remove` panics out of bounds), write the buffer
back into the active entry, and decrement the column. -/
def App.remove_char (a : App) : Except Err App :=
  if a.input.isEmpty then Except.ok a
  else if a.target_column ≤ 0 then Except.ok a
  else
    if a.input.length ≤ (a.target_column - 1).toNat then
      Except.error Err.indexOutOfRange
    else
      let input := a.input.eraseIdx (a.target_column - 1).toNat
      withEntry a (fun entry =>
        { a.set_messages (a.get_messages.set a.target_row.toNat
            { entry with message := input }) with
          input := input
          target_column := a.target_column - 1 })

/-- `App::clamp_row`, lines 146-149. -/
def App.clamp_row (a : App) : App :=
  { a with target_row := rustClamp a.target_row 0 ((a.get_messages.length : Int) - 1) }

/-- `App::clamp_column`, lines 151-155: clamp the column into
`[0, max(len(current message) - 1, 0)]` (reading the current message panics
when the row is out of bounds). -/
def App.clamp_column (a : App) : Except Err App :=
  a.get_current_message.bind (fun msg =>
    let current_message_length := max ((msg.length : Int) - 1) 0
    Except.ok { a with target_column := rustClamp a.target_column 0 current_message_length })

/-- `App::move_cursor`, lines 157-178: adjust row or column by one, clamp the
row, clamp the column, and reload the edit buffer from the entry now at
`target_row`. -/
def App.move_cursor (a : App) (move_operation : MoveCursorOperation) : Except Err App :=
  let a :=
    match move_operation with
    | MoveCursorOperation.down => { a with target_row := a.target_row + 1 }
    | MoveCursorOperation.up => { a with target_row := a.target_row - 1 }
    | MoveCursorOperation.left => { a with target_column := a.target_column - 1 }
    | MoveCursorOperation.right => { a with target_column := a.target_column + 1 }
  let a := a.clamp_row
  a.clamp_column.bind (fun a =>
    withEntry a (fun entry => { a with input := entry.message }))

/-- `App::new_line`, lines 180-198 (Enter in `Editing` mode): when
`target_row as usize >= prev_messages.len() - 1` (a negative row sign-extends
high, so it satisfies the comparison), push a fresh empty entry, advance the
row and reset the column; in all cases reload the edit buffer from the entry
now at `target_row` and return to `Normal` mode.  `prev_messages.len() - 1`
underflows on an empty list. -/
def App.new_line (a : App) : Except Err App :=
  let prev_messages := a.get_messages
  if prev_messages.length = 0 then Except.error Err.subOverflow
  else
    let a :=
      if a.target_row < 0 ∨ prev_messages.length - 1 ≤ a.target_row.toNat then
        let a := a.push_message { message := [], status := Status.todo }
        { a with target_row := a.target_row + 1, target_column := 0 }
      else a
    withEntry a (fun entry =>
      { a with input := entry.message, input_mode := InputMode.normal })

/-- `App::change_target_mode`, lines 200-213: toggle the active list, reset
the row to 0, and reload the edit buffer from the newly active entry.  The
column is left untouched. -/
def App.change_target_mode (a : App) : Except Err App :=
  let a :=
    if a.target_mode = TargetMode.daily then
      { a with target_mode := TargetMode.longTerm, target_row := 0 }
    else
      { a with target_mode := TargetMode.daily, target_row := 0 }
  withEntry a (fun entry => { a with input := entry.message })

/-- `App::remove_message`, lines 215-229: remove the active entry at
`target_row` (`Vec::remove` panics out of bounds), push one fresh empty entry
when the list became empty, then `move_cursor(Up)`. -/
def App.remove_message (a : App) : Except Err App :=
  if a.target_row < 0 ∨ a.get_messages.length ≤ a.target_row.toNat then
    Except.error Err.indexOutOfRange
  else
    let a := a.set_messages (a.get_messages.eraseIdx a.target_row.toNat)
    let a :=
      if a.get_messages.isEmpty then
        a.push_message { message := [], status := Status.todo }
      else a
    a.move_cursor MoveCursorOperation.up

/-- `App::set_message_status`, lines 231-236: set the status of the active
entry at `target_row` (`Vec` indexing panics out of bounds). -/
def App.set_message_status (a : App) (new_status : Status) : Except Err App :=
  withEntry a (fun entry =>
    a.set_messages (a.get_messages.set a.target_row.toNat
      { entry with status := new_status }))

/-- The discrete key events consumed by `run_app`, lines 275-336. -/
inductive KeyEvent where
  | char : Char → KeyEvent
  | enter
  | backspace
  | esc
  | up
  | down
  | left
  | right
  | other
deriving DecidableEq

/-- Outcome of one iteration of the `run_app` loop: either the session
terminates (the `q` key) or it continues with an updated state. -/
inductive StepResult where
  | quit : StepResult
  | cont : App → StepResult
deriving DecidableEq

/-- Lift an operation result into a continuing step. -/
def contOf (r : Except Err App) : Except Err StepResult :=
  match r with
  | Except.ok a => Except.ok (StepResult.cont a)
  | Except.error e => Except.error e

/-- One iteration of the event dispatch of `run_app`, lines 275-336: match on
the current mode, then on the key.  Unlisted keys are ignored.  In `Editing`
mode every character key, including `t`, reaches `add_char`. -/
def dispatch (a : App) (k : KeyEvent) : Except Err StepResult :=
  match a.input_mode with
  | InputMode.normal =>
    match k with
    | KeyEvent.char 'e' => Except.ok (StepResult.cont { a with input_mode := InputMode.editing })
    | KeyEvent.char 'q' => Except.ok StepResult.quit
    | KeyEvent.char 't' => contOf a.change_target_mode
    | KeyEvent.char 'r' => contOf a.remove_message
    | KeyEvent.char 'd' => contOf (a.set_message_status Status.done)
    | KeyEvent.up => contOf (a.move_cursor MoveCursorOperation.up)
    | KeyEvent.down => contOf (a.move_cursor MoveCursorOperation.down)
    | KeyEvent.left => contOf (a.move_cursor MoveCursorOperation.left)
    | KeyEvent.right => contOf (a.move_cursor MoveCursorOperation.right)
    | _ => Except.ok (StepResult.cont a)
  | InputMode.editing =>
    match k with
    | KeyEvent.enter => contOf a.new_line
    | KeyEvent.char c => contOf (a.add_char c)
    | KeyEvent.backspace => contOf a.remove_char
    | KeyEvent.esc => Except.ok (StepResult.cont { a with input_mode := InputMode.normal })
    | KeyEvent.up => contOf (a.move_cursor MoveCursorOperation.up)
    | KeyEvent.down => contOf (a.move_cursor MoveCursorOperation.down)
    | KeyEvent.left => contOf (a.move_cursor MoveCursorOperation.left)
    | KeyEvent.right => contOf (a.move_cursor MoveCursorOperation.right)
    | KeyEvent.other => Except.ok (StepResult.cont a)

/-- Run a sequence of key events from a state; stop at `quit` or at the first
panic. -/
def runEvents (a : App) : List KeyEvent → Except Err StepResult
  | [] => Except.ok (StepResult.cont a)
  | k :: ks =>
    match dispatch a k with
    | Except.ok (StepResult.cont a') => runEvents a' ks
    | Except.ok StepResult.quit => Except.ok StepResult.quit
    | Except.error e => Except.error e

/-- States reachable from `App::default` by dispatched events. -/
inductive Reachable : App → Prop where
  | init : Reachable App.default
  | step {a : App} {k : KeyEvent} {a' : App} :
      Reachable a → dispatch a k = Except.ok (StepResult.cont a') → Reachable a'

/-- The active entry addressed by the cursor (defaulting when out of range). -/
def App.activeEntry (a : App) : TodoData :=
  a.get_messages.getD a.target_row.toNat TodoData.default

/-- The operation left the inactive list untouched. -/
def sameInactive (a a' : App) : Prop :=
  (a.target_mode = TargetMode.daily → a'.long_term_todo = a.long_term_todo) ∧
  (a.target_mode = TargetMode.longTerm → a'.messages = a.messages)

/-- The invariant maintained by every dispatched event: both lists are
non-empty, the cursor row addresses a valid entry of the active list, and the
edit buffer mirrors that entry's text. -/
def Inv (a : App) : Prop :=
  1 ≤ a.messages.length ∧
  1 ≤ a.long_term_todo.length ∧
  0 ≤ a.target_row ∧
  a.target_row.toNat < a.get_messages.length ∧
  a.input = a.activeEntry.message

/-- The column bound stated by the specification:
`0 ≤ column ≤ max(len(active entry text) - 1, 0)`. -/
def ColumnOk (a : App) : Prop :=
  0 ≤ a.target_column ∧
  a.target_column ≤ max ((a.activeEntry.message.length : Int) - 1) 0

/-- The full cursor invariant claimed by the specification. -/
def AppInv (a : App) : Prop := Inv a ∧ ColumnOk a

instance (a : App) : Decidable (Inv a) := by
  unfold Inv
  infer_instance

instance (a : App) : Decidable (ColumnOk a) := by
  unfold ColumnOk
  infer_instance

instance (a : App) : Decidable (AppInv a) := by
  unfold AppInv
  infer_instance

/-- One structural change of a todo list as performed by the dispatcher: a
message edit at an index (status preserved), a fresh `Todo` push, a removal,
or setting the status at an index to `Done`.  No shape turns a `Done` entry
back into `Todo`. -/
inductive StatusSafeStep : List TodoData → List TodoData → Prop where
  | setMessage (l : List TodoData) (i : Nat) (m : List Char) :
      StatusSafeStep l (l.set i { l.getD i TodoData.default with message := m })
  | pushFresh (l : List TodoData) :
      StatusSafeStep l (l ++ [{ message := [], status := Status.todo }])
  | removeAt (l : List TodoData) (i : Nat) :
      StatusSafeStep l (l.eraseIdx i)
  | setDone (l : List TodoData) (i : Nat) :
      StatusSafeStep l (l.set i { l.getD i TodoData.default with status := Status.done })

/-- Reflexive-transitive closure of `StatusSafeStep`. -/
def StatusSafe : List TodoData → List TodoData → Prop :=
  Relation.ReflTransGen StatusSafeStep

instance {α β : Type} [DecidableEq α] [DecidableEq β] : DecidableEq (Except α β) := fun x y =>
  match x, y with
  | Except.ok a, Except.ok b =>
    if h : a = b then isTrue (by rw [h]) else isFalse (fun hh => h (Except.ok.inj hh))
  | Except.error e, Except.error f =>
    if h : e = f then isTrue (by rw [h]) else isFalse (fun hh => h (Except.error.inj hh))
  | Except.ok _, Except.error _ => isFalse (fun hh => Except.noConfusion hh)
  | Except.error _, Except.ok _ => isFalse (fun hh => Except.noConfusion hh)

/-! ### Concrete scenario states -/

/-- Scenario 1 input: enter edit mode, type "buy milk", press Enter. -/
def scenario1Events : List KeyEvent :=
  [KeyEvent.char 'e'] ++ ("buy milk".data.map KeyEvent.char) ++ [KeyEvent.enter]

/-- The state scenario 1 ends in. -/
def scenario1Result : App :=
  { input := []
    input_mode := InputMode.normal
    target_mode := TargetMode.daily
    messages := [{ message := "buy milk".data, status := Status.todo },
                 { message := [], status := Status.todo }]
    long_term_todo := [TodoData.default]
    target_row := 1
    target_column := 0 }

/-- Events leading to a reachable state whose column exceeds the clamp
bound: edit, type "ab", escape, switch lists. -/
def staleColumnEvents : List KeyEvent :=
  [KeyEvent.char 'e', KeyEvent.char 'a', KeyEvent.char 'b', KeyEvent.esc, KeyEvent.char 't']

/-- The reachable state after `staleColumnEvents`: the long-term list is
active, its sole entry is empty, yet `target_column = 2`. -/
def staleColumnState : App :=
  { input := []
    input_mode := InputMode.normal
    target_mode := TargetMode.longTerm
    messages := [{ message := ['a', 'b'], status := Status.todo }]
    long_term_todo := [TodoData.default]
    target_row := 0
    target_column := 2 }

/-- Continuing from the stale column: re-enter edit mode and type one more
character, which makes `add_char` insert at offset 2 of an empty buffer. -/
def panicEvents : List KeyEvent :=
  staleColumnEvents ++ [KeyEvent.char 'e', KeyEvent.char 'x']

/-- `App::default` with `Editing` mode (reachable by pressing `e`). -/
def editDefault : App := { App.default with input_mode := InputMode.editing }

/-- The state after pressing `t` in `editDefault`: the character was
inserted. -/
def editAfterT : App :=
  { input := ['t']
    input_mode := InputMode.editing
    target_mode := TargetMode.daily
    messages := [{ message := ['t'], status := Status.todo }]
    long_term_todo := [TodoData.default]
    target_row := 0
    target_column := 1 }

/-- Scenario 4 state: editing `"abc"` with the column at 3. -/
def abcState : App :=
  { input := ['a', 'b', 'c']
    input_mode := InputMode.editing
    target_mode := TargetMode.daily
    messages := [{ message := ['a', 'b', 'c'], status := Status.todo }]
    long_term_todo := [TodoData.default]
    target_row := 0
    target_column := 3 }

/-- `abcState` after one Backspace: text and buffer "ab", column 2. -/
def abState : App :=
  { input := ['a', 'b']
    input_mode := InputMode.editing
    target_mode := TargetMode.daily
    messages := [{ message := ['a', 'b'], status := Status.todo }]
    long_term_todo := [TodoData.default]
    target_row := 0
    target_column := 2 }

/-- Committing the sole empty line of `App::default`. -/
def defaultCommitted : App :=
  { input := []
    input_mode := InputMode.normal
    target_mode := TargetMode.daily
    messages := [TodoData.default, TodoData.default]
    long_term_todo := [TodoData.default]
    target_row := 1
    target_column := 0 }

/-- `App::default` with the long-term list selected. -/
def defaultLongTerm : App := { App.default with target_mode := TargetMode.longTerm }

/-- `App::default` after marking its sole daily entry done. -/
def defaultDone : App :=
  { App.default with messages := [{ message := [], status := Status.done }] }

/-! ### Basic lemmas about list selection and indexing -/

@[simp] theorem set_messages_input (a : App) (l : List TodoData) :
    (a.set_messages l).input = a.input := by
  unfold App.set_messages; split <;> rfl

@[simp] theorem set_messages_input_mode (a : App) (l : List TodoData) :
    (a.set_messages l).input_mode = a.input_mode := by
  unfold App.set_messages; split <;> rfl

@[simp] theorem set_messages_target_mode (a : App) (l : List TodoData) :
    (a.set_messages l).target_mode = a.target_mode := by
  unfold App.set_messages; split <;> rfl

@[simp] theorem set_messages_target_row (a : App) (l : List TodoData) :
    (a.set_messages l).target_row = a.target_row := by
  unfold App.set_messages; split <;> rfl

@[simp] theorem set_messages_target_column (a : App) (l : List TodoData) :
    (a.set_messages l).target_column = a.target_column := by
  unfold App.set_messages; split <;> rfl

@[simp] theorem get_messages_set_messages (a : App) (l : List TodoData) :
    (a.set_messages l).get_messages = l := by
  unfold App.set_messages App.get_messages
  by_cases h : a.target_mode = TargetMode.daily <;> simp [h]

theorem get_messages_daily {a : App} (h : a.target_mode = TargetMode.daily) :
    a.get_messages = a.messages := by
  unfold App.get_messages; rw [if_pos h]

theorem get_messages_longTerm {a : App} (h : a.target_mode = TargetMode.longTerm) :
    a.get_messages = a.long_term_todo := by
  unfold App.get_messages; rw [if_neg (by simp [h])]

theorem set_messages_daily {a : App} (l : List TodoData)
    (h : a.target_mode = TargetMode.daily) :
    a.set_messages l = { a with messages := l } := by
  unfold App.set_messages; rw [if_pos h]

theorem set_messages_longTerm {a : App} (l : List TodoData)
    (h : a.target_mode = TargetMode.longTerm) :
    a.set_messages l = { a with long_term_todo := l } := by
  unfold App.set_messages; rw [if_neg (by simp [h])]

/-- The two lists and the selector determine the active list. -/
theorem get_messages_congr {a b : App} (hm : b.target_mode = a.target_mode)
    (h1 : b.messages = a.messages) (h2 : b.long_term_todo = a.long_term_todo) :
    b.get_messages = a.get_messages := by
  unfold App.get_messages; rw [hm, h1, h2]


theorem sameInactive_set_messages (a : App) (l : List TodoData) :
    sameInactive a (a.set_messages l) := by
  constructor <;> intro h <;> simp [App.set_messages, h]

/-- Both list lengths, recovered from the active list's length and an
untouched inactive list. -/
theorem lengths_of_active {a a' : App} (hm : a'.target_mode = a.target_mode)
    (hact : a'.get_messages.length = a.get_messages.length)
    (hin : sameInactive a a') :
    a'.messages.length = a.messages.length ∧
      a'.long_term_todo.length = a.long_term_todo.length := by
  cases htm : a.target_mode with
  | daily =>
    rw [get_messages_daily htm, get_messages_daily (hm.trans htm)] at hact
    exact ⟨hact, by rw [hin.1 htm]⟩
  | longTerm =>
    rw [get_messages_longTerm htm, get_messages_longTerm (hm.trans htm)] at hact
    exact ⟨by rw [hin.2 htm], hact⟩

theorem listGet?_ok (l : List TodoData) (i : Int) (h0 : 0 ≤ i) (h1 : i.toNat < l.length) :
    listGet? l i = Except.ok (l.getD i.toNat TodoData.default) := by
  unfold listGet?; rw [if_pos ⟨h0, h1⟩]

theorem listGet?_err (l : List TodoData) (i : Int) (h : i < 0 ∨ l.length ≤ i.toNat) :
    listGet? l i = Except.error Err.indexOutOfRange := by
  unfold listGet?; rw [if_neg]; omega

theorem listGet?_ok_inv {l : List TodoData} {i : Int} {d : TodoData}
    (h : listGet? l i = Except.ok d) :
    0 ≤ i ∧ i.toNat < l.length ∧ d = l.getD i.toNat TodoData.default := by
  unfold listGet? at h
  by_cases hc : 0 ≤ i ∧ i.toNat < l.length
  · rw [if_pos hc] at h
    exact ⟨hc.1, hc.2, (Except.ok.inj h).symm⟩
  · rw [if_neg hc] at h
    exact absurd h (by simp)

theorem rustClamp_bounds (x lo hi : Int) (h : lo ≤ hi) :
    lo ≤ rustClamp x lo hi ∧ rustClamp x lo hi ≤ hi := by
  unfold rustClamp
  by_cases h1 : x < lo
  · rw [if_pos h1]; omega
  · rw [if_neg h1]
    by_cases h2 : hi < x
    · rw [if_pos h2]; omega
    · rw [if_neg h2]; omega

theorem rustClamp_of_mem {x lo hi : Int} (h1 : lo ≤ x) (h2 : x ≤ hi) :
    rustClamp x lo hi = x := by
  unfold rustClamp
  rw [if_neg (by omega), if_neg (by omega)]

/-! ### Characterizations of the individual operations -/

theorem withEntry_ok {a : App} (f : TodoData → App)
    (h0 : 0 ≤ a.target_row) (h1 : a.target_row.toNat < a.get_messages.length) :
    withEntry a f = Except.ok (f a.activeEntry) := by
  unfold withEntry
  rw [listGet?_ok _ _ h0 h1]
  rfl

theorem withEntry_err {a : App} (f : TodoData → App)
    (h : a.target_row < 0 ∨ a.get_messages.length ≤ a.target_row.toNat) :
    withEntry a f = Except.error Err.indexOutOfRange := by
  unfold withEntry
  rw [listGet?_err _ _ h]
  rfl

theorem withEntry_ok_inv {a : App} {f : TodoData → App} {a' : App}
    (h : withEntry a f = Except.ok a') :
    0 ≤ a.target_row ∧ a.target_row.toNat < a.get_messages.length ∧
      a' = f a.activeEntry := by
  by_cases hc : 0 ≤ a.target_row ∧ a.target_row.toNat < a.get_messages.length
  · rw [withEntry_ok f hc.1 hc.2] at h
    exact ⟨hc.1, hc.2, (Except.ok.inj h).symm⟩
  · rw [withEntry_err f (by omega)] at h
    exact absurd h (by simp)

theorem get_current_message_ok {a : App}
    (h0 : 0 ≤ a.target_row) (h1 : a.target_row.toNat < a.get_messages.length) :
    a.get_current_message = Except.ok a.activeEntry.message := by
  unfold App.get_current_message
  rw [listGet?_ok _ _ h0 h1]
  rfl

theorem get_current_message_err {a : App}
    (h : a.target_row < 0 ∨ a.get_messages.length ≤ a.target_row.toNat) :
    a.get_current_message = Except.error Err.indexOutOfRange := by
  unfold App.get_current_message
  rw [listGet?_err _ _ h]
  rfl

theorem clamp_column_ok {a : App}
    (h0 : 0 ≤ a.target_row) (h1 : a.target_row.toNat < a.get_messages.length) :
    a.clamp_column = Except.ok
      { a with
        target_column :=
          rustClamp a.target_column 0 (max ((a.activeEntry.message.length : Int) - 1) 0) } := by
  unfold App.clamp_column
  rw [get_current_message_ok h0 h1]
  rfl

theorem clamp_column_err {a : App}
    (h : a.target_row < 0 ∨ a.get_messages.length ≤ a.target_row.toNat) :
    a.clamp_column = Except.error Err.indexOutOfRange := by
  unfold App.clamp_column
  rw [get_current_message_err h]
  rfl

theorem clamp_row_def (a : App) :
    a.clamp_row =
      { a with target_row := rustClamp a.target_row 0 ((a.get_messages.length : Int) - 1) } :=
  rfl

theorem set_message_status_ok {a : App} (s : Status)
    (h0 : 0 ≤ a.target_row) (h1 : a.target_row.toNat < a.get_messages.length) :
    a.set_message_status s = Except.ok (a.set_messages (a.get_messages.set a.target_row.toNat
      { a.activeEntry with status := s })) := by
  unfold App.set_message_status
  rw [withEntry_ok _ h0 h1]

theorem set_message_status_err {a : App} (s : Status)
    (h : a.target_row < 0 ∨ a.get_messages.length ≤ a.target_row.toNat) :
    a.set_message_status s = Except.error Err.indexOutOfRange := by
  unfold App.set_message_status
  exact withEntry_err _ h

theorem change_target_mode_of_daily {a : App} (h : a.target_mode = TargetMode.daily)
    (hl : 1 ≤ a.long_term_todo.length) :
    a.change_target_mode = Except.ok
      { a with
        target_mode := TargetMode.longTerm
        target_row := 0
        input := (a.long_term_todo.getD 0 TodoData.default).message } := by
  unfold App.change_target_mode
  rw [if_pos h]
  rw [withEntry_ok _ (by exact Int.le_refl 0)
    (by show (0 : Int).toNat < a.long_term_todo.length; omega)]
  rfl

theorem change_target_mode_of_longTerm {a : App} (h : a.target_mode = TargetMode.longTerm)
    (hl : 1 ≤ a.messages.length) :
    a.change_target_mode = Except.ok
      { a with
        target_mode := TargetMode.daily
        target_row := 0
        input := (a.messages.getD 0 TodoData.default).message } := by
  unfold App.change_target_mode
  rw [if_neg (by rw [h]; intro hc; exact absurd hc (by simp))]
  rw [withEntry_ok _ (by exact Int.le_refl 0)
    (by show (0 : Int).toNat < a.messages.length; omega)]
  rfl

theorem add_char_ok {a : App} (c : Char)
    (hc0 : 0 ≤ a.target_column) (hc1 : a.target_column.toNat ≤ a.input.length)
    (h0 : 0 ≤ a.target_row) (h1 : a.target_row.toNat < a.get_messages.length) :
    a.add_char c = Except.ok
      { a.set_messages (a.get_messages.set a.target_row.toNat
          { a.activeEntry with message := a.input.insertIdx a.target_column.toNat c }) with
        input := a.input.insertIdx a.target_column.toNat c
        target_column := a.target_column + 1 } := by
  unfold App.add_char
  rw [if_neg (by omega)]
  rw [withEntry_ok _ h0 h1]

theorem add_char_ok_inv {a : App} {c : Char} {a' : App} (h : a.add_char c = Except.ok a') :
    0 ≤ a.target_column ∧ a.target_column.toNat ≤ a.input.length ∧
    0 ≤ a.target_row ∧ a.target_row.toNat < a.get_messages.length ∧
    a' = { a.set_messages (a.get_messages.set a.target_row.toNat
            { a.activeEntry with message := a.input.insertIdx a.target_column.toNat c }) with
           input := a.input.insertIdx a.target_column.toNat c
           target_column := a.target_column + 1 } := by
  unfold App.add_char at h
  by_cases hg : a.target_column < 0 ∨ a.input.length < a.target_column.toNat
  · rw [if_pos hg] at h
    exact absurd h (by simp)
  · rw [if_neg hg] at h
    obtain ⟨h0, h1, he⟩ := withEntry_ok_inv h
    exact ⟨by omega, by omega, h0, h1, he⟩

theorem remove_char_of_empty {a : App} (h : a.input = []) :
    a.remove_char = Except.ok a := by
  unfold App.remove_char
  rw [if_pos (by simp [h])]

theorem remove_char_of_colzero {a : App} (h : a.target_column ≤ 0) :
    a.remove_char = Except.ok a := by
  unfold App.remove_char
  by_cases hi : a.input.isEmpty
  · rw [if_pos hi]
  · rw [if_neg hi, if_pos h]

theorem remove_char_ok {a : App} (hne : a.input ≠ []) (hc : 0 < a.target_column)
    (hlen : (a.target_column - 1).toNat < a.input.length)
    (h0 : 0 ≤ a.target_row) (h1 : a.target_row.toNat < a.get_messages.length) :
    a.remove_char = Except.ok
      { a.set_messages (a.get_messages.set a.target_row.toNat
          { a.activeEntry with message := a.input.eraseIdx (a.target_column - 1).toNat }) with
        input := a.input.eraseIdx (a.target_column - 1).toNat
        target_column := a.target_column - 1 } := by
  unfold App.remove_char
  rw [if_neg (by simp [hne]), if_neg (by omega), if_neg (by omega), withEntry_ok _ h0 h1]

theorem remove_char_ok_inv {a a' : App} (h : a.remove_char = Except.ok a') :
    (a.input = [] ∧ a' = a) ∨
    (a.input ≠ [] ∧ a.target_column ≤ 0 ∧ a' = a) ∨
    (a.input ≠ [] ∧ 0 < a.target_column ∧ (a.target_column - 1).toNat < a.input.length ∧
     0 ≤ a.target_row ∧ a.target_row.toNat < a.get_messages.length ∧
     a' = { a.set_messages (a.get_messages.set a.target_row.toNat
             { a.activeEntry with message := a.input.eraseIdx (a.target_column - 1).toNat }) with
            input := a.input.eraseIdx (a.target_column - 1).toNat
            target_column := a.target_column - 1 }) := by
  by_cases he : a.input = []
  · rw [remove_char_of_empty he] at h
    exact Or.inl ⟨he, (Except.ok.inj h).symm⟩
  · by_cases hc : a.target_column ≤ 0
    · rw [remove_char_of_colzero hc] at h
      exact Or.inr (Or.inl ⟨he, hc, (Except.ok.inj h).symm⟩)
    · unfold App.remove_char at h
      rw [if_neg (by simp [he]), if_neg (by omega)] at h
      by_cases hl : a.input.length ≤ (a.target_column - 1).toNat
      · rw [if_pos hl] at h
        exact absurd h (by simp)
      · rw [if_neg hl] at h
        obtain ⟨h0, h1, hr⟩ := withEntry_ok_inv h
        exact Or.inr (Or.inr ⟨he, by omega, by omega, h0, h1, hr⟩)

@[simp] theorem bind_ok_eq {α β : Type} (x : α) (f : α → Except Err β) :
    (Except.ok x : Except Err α).bind f = f x := rfl

@[simp] theorem bind_err_eq {α β : Type} (e : Err) (f : α → Except Err β) :
    (Except.error e : Except Err α).bind f = Except.error e := rfl

theorem move_tail_ok {b : App} (h : 1 ≤ b.get_messages.length) :
    ∃ a', b.clamp_row.clamp_column.bind
        (fun a => withEntry a (fun entry => { a with input := entry.message })) = Except.ok a' ∧
      a'.messages = b.messages ∧ a'.long_term_todo = b.long_term_todo ∧
      a'.target_mode = b.target_mode ∧ a'.input_mode = b.input_mode ∧
      0 ≤ a'.target_row ∧ a'.target_row.toNat < a'.get_messages.length ∧
      0 ≤ a'.target_column ∧
      a'.target_column ≤ max ((a'.activeEntry.message.length : Int) - 1) 0 ∧
      a'.input = a'.activeEntry.message := by
  have hrow := rustClamp_bounds b.target_row 0 ((b.get_messages.length : Int) - 1) (by omega)
  have h0 : (0 : Int) ≤ b.clamp_row.target_row := hrow.1
  have h1 : b.clamp_row.target_row.toNat < b.clamp_row.get_messages.length := by
    show (rustClamp b.target_row 0 ((b.get_messages.length : Int) - 1)).toNat <
      b.get_messages.length
    omega
  rw [clamp_column_ok h0 h1, bind_ok_eq]
  refine ⟨_, withEntry_ok _ ?_ ?_, rfl, rfl, rfl, rfl, ?_, ?_, ?_, ?_, rfl⟩
  · exact hrow.1
  · show (rustClamp b.target_row 0 ((b.get_messages.length : Int) - 1)).toNat <
      b.get_messages.length
    omega
  · exact hrow.1
  · show (rustClamp b.target_row 0 ((b.get_messages.length : Int) - 1)).toNat <
      b.get_messages.length
    omega
  · exact (rustClamp_bounds _ _ _ (le_max_right _ _)).1
  · exact (rustClamp_bounds _ _ _ (le_max_right _ _)).2

theorem move_cursor_ok {a : App} (op : MoveCursorOperation) (h : 1 ≤ a.get_messages.length) :
    ∃ a', a.move_cursor op = Except.ok a' ∧
      a'.messages = a.messages ∧ a'.long_term_todo = a.long_term_todo ∧
      a'.target_mode = a.target_mode ∧ a'.input_mode = a.input_mode ∧
      0 ≤ a'.target_row ∧ a'.target_row.toNat < a'.get_messages.length ∧
      0 ≤ a'.target_column ∧
      a'.target_column ≤ max ((a'.activeEntry.message.length : Int) - 1) 0 ∧
      a'.input = a'.activeEntry.message := by
  cases op <;> exact move_tail_ok h

theorem move_tail_len {b : App} {a' : App}
    (h : b.clamp_row.clamp_column.bind
      (fun a => withEntry a (fun entry => { a with input := entry.message })) = Except.ok a') :
    1 ≤ b.get_messages.length := by
  by_cases hl : 1 ≤ b.get_messages.length
  · exact hl
  · exfalso
    rw [clamp_column_err (Or.inr (by show b.get_messages.length ≤ _; omega)), bind_err_eq] at h
    exact absurd h (by simp)

theorem move_cursor_ok_inv {a : App} {op : MoveCursorOperation} {a' : App}
    (h : a.move_cursor op = Except.ok a') :
    a'.messages = a.messages ∧ a'.long_term_todo = a.long_term_todo ∧
    a'.target_mode = a.target_mode ∧ a'.input_mode = a.input_mode ∧
    0 ≤ a'.target_row ∧ a'.target_row.toNat < a'.get_messages.length ∧
    0 ≤ a'.target_column ∧
    a'.target_column ≤ max ((a'.activeEntry.message.length : Int) - 1) 0 ∧
    a'.input = a'.activeEntry.message := by
  have hl : 1 ≤ a.get_messages.length := by
    cases op
    · unfold App.move_cursor at h; dsimp only at h
      exact move_tail_len (b := { a with target_column := a.target_column + 1 }) h
    · unfold App.move_cursor at h; dsimp only at h
      exact move_tail_len (b := { a with target_column := a.target_column - 1 }) h
    · unfold App.move_cursor at h; dsimp only at h
      exact move_tail_len (b := { a with target_row := a.target_row - 1 }) h
    · unfold App.move_cursor at h; dsimp only at h
      exact move_tail_len (b := { a with target_row := a.target_row + 1 }) h
  obtain ⟨a0, heq, hp⟩ := move_cursor_ok op hl
  rw [heq] at h
  cases Except.ok.inj h
  exact hp

@[simp] theorem push_message_target_row (a : App) (e : TodoData) :
    (a.push_message e).target_row = a.target_row := by
  unfold App.push_message; simp

@[simp] theorem push_message_target_column (a : App) (e : TodoData) :
    (a.push_message e).target_column = a.target_column := by
  unfold App.push_message; simp

@[simp] theorem push_message_target_mode (a : App) (e : TodoData) :
    (a.push_message e).target_mode = a.target_mode := by
  unfold App.push_message; simp

@[simp] theorem push_message_input_mode (a : App) (e : TodoData) :
    (a.push_message e).input_mode = a.input_mode := by
  unfold App.push_message; simp

@[simp] theorem push_message_input (a : App) (e : TodoData) :
    (a.push_message e).input = [] := by
  unfold App.push_message; simp

@[simp] theorem push_message_get_messages (a : App) (e : TodoData) :
    (a.push_message e).get_messages = a.get_messages ++ [e] := by
  unfold App.push_message
  exact get_messages_set_messages _ _

@[simp] theorem get_messages_mk (i : List Char) (im : InputMode) (tm : TargetMode)
    (ms lt : List TodoData) (r c : Int) :
    (App.mk i im tm ms lt r c).get_messages =
      if tm = TargetMode.daily then ms else lt := rfl

@[simp] theorem set_messages_messages (a : App) (l : List TodoData) :
    (a.set_messages l).messages = if a.target_mode = TargetMode.daily then l else a.messages := by
  unfold App.set_messages
  split <;> simp_all

@[simp] theorem set_messages_long_term (a : App) (l : List TodoData) :
    (a.set_messages l).long_term_todo =
      if a.target_mode = TargetMode.daily then a.long_term_todo else l := by
  unfold App.set_messages
  split <;> simp_all

theorem getD_concat_length (l : List TodoData) (e d : TodoData) :
    (l ++ [e]).getD l.length d = e := by
  induction l with
  | nil => rfl
  | cons x xs ih => simp [ih]

theorem new_line_of_last {a : App} (hlen : 1 ≤ a.get_messages.length)
    (h0 : 0 ≤ a.target_row) (hr : a.get_messages.length - 1 ≤ a.target_row.toNat)
    (hr2 : a.target_row.toNat < a.get_messages.length) :
    ∃ a', a.new_line = Except.ok a' ∧
      a'.get_messages = a.get_messages ++ [{ message := [], status := Status.todo }] ∧
      sameInactive a a' ∧
      a'.target_mode = a.target_mode ∧
      a'.input_mode = InputMode.normal ∧
      a'.target_row = a.target_row + 1 ∧
      a'.target_column = 0 ∧
      a'.input = [] := by
  have ht : (a.target_row + 1).toNat = a.get_messages.length := by omega
  unfold App.new_line
  rw [if_neg (by omega), if_pos (Or.inr hr)]
  dsimp only
  refine ⟨_, withEntry_ok _ ?_ ?_, ?_, ?_, ?_, ?_, ?_, ?_, ?_⟩
  · simp; omega
  · simp [App.push_message, App.get_messages]
    split <;> simp_all [App.get_messages]
  · simp [App.push_message, App.get_messages]
    split <;> simp_all [App.get_messages]
  · constructor <;> intro htm <;> simp [App.push_message, App.set_messages, htm]
  · simp
  · simp
  · simp
  · simp
  · show ((a.push_message { message := [], status := Status.todo }).get_messages.getD _ _).message = []
    rw [push_message_get_messages]
    simp only [push_message_target_row]
    rw [ht, getD_concat_length]

theorem new_line_of_mid {a : App} (h0 : 0 ≤ a.target_row)
    (hr : a.target_row.toNat < a.get_messages.length - 1) :
    a.new_line =
      Except.ok { a with input := a.activeEntry.message, input_mode := InputMode.normal } := by
  unfold App.new_line
  rw [if_neg (by omega), if_neg (by omega)]
  dsimp only
  rw [withEntry_ok _ h0 (by omega)]

theorem sameInactive_trans {a b c : App} (hm : b.target_mode = a.target_mode)
    (h1 : sameInactive a b) (h2 : sameInactive b c) : sameInactive a c := by
  constructor <;> intro htm
  · exact (h2.1 (by rw [hm, htm])).trans (h1.1 htm)
  · exact (h2.2 (by rw [hm, htm])).trans (h1.2 htm)

theorem sameInactive_push (a : App) (e : TodoData) :
    sameInactive a (a.push_message e) := by
  constructor <;> intro htm <;> simp [App.push_message, App.set_messages, htm]

theorem remove_message_err {a : App}
    (h : a.target_row < 0 ∨ a.get_messages.length ≤ a.target_row.toNat) :
    a.remove_message = Except.error Err.indexOutOfRange := by
  unfold App.remove_message
  rw [if_pos h]

theorem remove_message_ok {a : App} (h0 : 0 ≤ a.target_row)
    (h1 : a.target_row.toNat < a.get_messages.length) :
    ∃ a', a.remove_message = Except.ok a' ∧
      a'.get_messages =
        (if (a.get_messages.eraseIdx a.target_row.toNat).isEmpty then
          [{ message := [], status := Status.todo }]
        else a.get_messages.eraseIdx a.target_row.toNat) ∧
      sameInactive a a' ∧ a'.target_mode = a.target_mode ∧ a'.input_mode = a.input_mode ∧
      0 ≤ a'.target_row ∧ a'.target_row.toNat < a'.get_messages.length ∧
      0 ≤ a'.target_column ∧
      a'.target_column ≤ max ((a'.activeEntry.message.length : Int) - 1) 0 ∧
      a'.input = a'.activeEntry.message := by
  unfold App.remove_message
  rw [if_neg (by omega)]
  dsimp only
  split
  case isTrue hemp =>
    have hemp' : a.get_messages.eraseIdx a.target_row.toNat = [] := by
      simpa using hemp
    have hlen : 1 ≤ ((a.set_messages (a.get_messages.eraseIdx a.target_row.toNat)).push_message
        { message := [], status := Status.todo }).get_messages.length := by
      simp
    obtain ⟨a', heq, hm1, hm2, hm3, hm4, hp⟩ := move_cursor_ok MoveCursorOperation.up hlen
    refine ⟨a', heq, ?_, ?_, ?_, ?_, ?_⟩
    · rw [if_pos (by simp [hemp'])]
      rw [get_messages_congr hm3 hm1 hm2, push_message_get_messages, get_messages_set_messages,
        hemp']
      rfl
    · exact sameInactive_trans (by simp)
        (sameInactive_trans (by simp) (sameInactive_set_messages _ _) (sameInactive_push _ _))
        ⟨fun htm => hm2, fun htm => hm1⟩
    · rw [hm3]; simp
    · rw [hm4]; simp
    · exact hp
  case isFalse hemp =>
    have hne : a.get_messages.eraseIdx a.target_row.toNat ≠ [] := by
      intro hh
      exact hemp (by simp [hh])
    have hlen :
        1 ≤ (a.set_messages (a.get_messages.eraseIdx a.target_row.toNat)).get_messages.length := by
      rw [get_messages_set_messages]
      exact List.length_pos.mpr hne
    obtain ⟨a', heq, hm1, hm2, hm3, hm4, hp⟩ := move_cursor_ok MoveCursorOperation.up hlen
    refine ⟨a', heq, ?_, ?_, ?_, ?_, ?_⟩
    · rw [if_neg (by simp [hne])]
      rw [get_messages_congr hm3 hm1 hm2, get_messages_set_messages]
    · exact sameInactive_trans (by simp) (sameInactive_set_messages _ _)
        ⟨fun htm => hm2, fun htm => hm1⟩
    · rw [hm3]; simp
    · rw [hm4]; simp
    · exact hp

/-! ### The inductive invariant of reachable states -/

theorem cont_inj {x y : App}
    (h : (Except.ok (StepResult.cont x) : Except Err StepResult) =
      Except.ok (StepResult.cont y)) : x = y :=
  StepResult.cont.inj (Except.ok.inj h)

theorem contOf_ok_inv {r : Except Err App} {a' : App}
    (h : contOf r = Except.ok (StepResult.cont a')) : r = Except.ok a' := by
  cases r with
  | ok x =>
    have : x = a' := StepResult.cont.inj (Except.ok.inj h)
    rw [this]
  | error e => exact absurd h (by simp [contOf])

theorem lengths_ge_one {a a' : App} (hm : a'.target_mode = a.target_mode)
    (hin : sameInactive a a') (h1 : 1 ≤ a.messages.length)
    (h2 : 1 ≤ a.long_term_todo.length) (hact : 1 ≤ a'.get_messages.length) :
    1 ≤ a'.messages.length ∧ 1 ≤ a'.long_term_todo.length := by
  cases htm : a.target_mode
  · rw [get_messages_daily (hm.trans htm)] at hact
    exact ⟨hact, by rw [hin.1 htm]; exact h2⟩
  · rw [get_messages_longTerm (hm.trans htm)] at hact
    exact ⟨by rw [hin.2 htm]; exact h1, hact⟩

theorem getD_set_self (l : List TodoData) (i : Nat) (x d : TodoData) (h : i < l.length) :
    (l.set i x).getD i d = x := by
  induction l generalizing i with
  | nil => simp at h
  | cons y ys ih =>
    cases i with
    | zero => rfl
    | succ j => exact ih j (by simpa using h)

/-- Writing an entry back at the cursor (the common tail of `add_char` and
`remove_char`) preserves the invariant, for any written column value. -/
theorem inv_write_back {a : App} {x : TodoData} {v : List Char} {w : Int}
    (hL1 : 1 ≤ a.messages.length) (hL2 : 1 ≤ a.long_term_todo.length)
    (hr0 : 0 ≤ a.target_row) (hr1 : a.target_row.toNat < a.get_messages.length)
    (hx : x.message = v) :
    Inv { a.set_messages (a.get_messages.set a.target_row.toNat x) with
          input := v
          target_column := w } := by
  unfold Inv App.activeEntry
  cases htm : a.target_mode
  case daily =>
    rw [get_messages_daily htm] at hr1
    refine ⟨?_, ?_, ?_, ?_, ?_⟩ <;>
      (try simp [App.get_messages, App.set_messages, htm, List.getElem?_set_self hr1]) <;>
      (first
        | omega
        | exact hr0
        | exact hx.symm)
  case longTerm =>
    rw [get_messages_longTerm htm] at hr1
    refine ⟨?_, ?_, ?_, ?_, ?_⟩ <;>
      (try simp [App.get_messages, App.set_messages, htm, List.getElem?_set_self hr1]) <;>
      (first
        | omega
        | exact hr0
        | exact hx.symm)

/-- Setting the status of the entry at the cursor preserves the invariant. -/
theorem inv_set_status {a : App} {x : TodoData}
    (hL1 : 1 ≤ a.messages.length) (hL2 : 1 ≤ a.long_term_todo.length)
    (hr0 : 0 ≤ a.target_row) (hr1 : a.target_row.toNat < a.get_messages.length)
    (hsync : a.input = a.activeEntry.message) (hx : x.message = a.activeEntry.message) :
    Inv (a.set_messages (a.get_messages.set a.target_row.toNat x)) := by
  unfold Inv App.activeEntry
  cases htm : a.target_mode
  case daily =>
    rw [get_messages_daily htm] at hr1
    refine ⟨?_, ?_, ?_, ?_, ?_⟩ <;>
      (try simp [App.get_messages, App.set_messages, htm, List.getElem?_set_self hr1]) <;>
      (first
        | omega
        | exact hr0
        | exact hsync.trans hx.symm)
  case longTerm =>
    rw [get_messages_longTerm htm] at hr1
    refine ⟨?_, ?_, ?_, ?_, ?_⟩ <;>
      (try simp [App.get_messages, App.set_messages, htm, List.getElem?_set_self hr1]) <;>
      (first
        | omega
        | exact hr0
        | exact hsync.trans hx.symm)

/-- One dispatched event preserves the invariant. -/
theorem inv_step {a : App} {k : KeyEvent} {a' : App} (hInv : Inv a)
    (h : dispatch a k = Except.ok (StepResult.cont a')) : Inv a' := by
  obtain ⟨hL1, hL2, hr0, hr1, hsync⟩ := hInv
  unfold dispatch at h
  split at h
  all_goals split at h
  case _ =>  -- normal, char 'e'
    cases cont_inj h
    exact ⟨hL1, hL2, hr0, hr1, hsync⟩
  case _ =>  -- normal, char 'q'
    exact absurd h (by simp)
  case _ =>  -- normal, char 't'
    have hc := contOf_ok_inv h
    cases htm : a.target_mode
    case daily =>
      rw [change_target_mode_of_daily htm hL2] at hc
      cases Except.ok.inj hc
      refine ⟨hL1, hL2, le_refl 0, ?_, rfl⟩
      show (0 : Int).toNat < a.long_term_todo.length
      omega
    case longTerm =>
      rw [change_target_mode_of_longTerm htm hL1] at hc
      cases Except.ok.inj hc
      refine ⟨hL1, hL2, le_refl 0, ?_, rfl⟩
      show (0 : Int).toNat < a.messages.length
      omega
  case _ =>  -- normal, char 'r'
    have hc := contOf_ok_inv h
    obtain ⟨a0, heq, hget, hsame, hmode, himode, hq0, hq1, _, _, hs⟩ :=
      remove_message_ok hr0 hr1
    rw [heq] at hc
    cases Except.ok.inj hc
    obtain ⟨hA, hB⟩ := lengths_ge_one hmode hsame hL1 hL2 (by omega)
    exact ⟨hA, hB, hq0, hq1, hs⟩
  case _ =>  -- normal, char 'd'
    have hc := contOf_ok_inv h
    rw [set_message_status_ok _ hr0 hr1] at hc
    cases Except.ok.inj hc
    exact inv_set_status hL1 hL2 hr0 hr1 hsync rfl
  case _ =>  -- normal, up
    have hc := contOf_ok_inv h
    obtain ⟨hm1, hm2, hm3, hm4, hq0, hq1, _, _, hs⟩ := move_cursor_ok_inv hc
    exact ⟨by rw [hm1]; exact hL1, by rw [hm2]; exact hL2, hq0, hq1, hs⟩
  case _ =>  -- normal, down
    have hc := contOf_ok_inv h
    obtain ⟨hm1, hm2, hm3, hm4, hq0, hq1, _, _, hs⟩ := move_cursor_ok_inv hc
    exact ⟨by rw [hm1]; exact hL1, by rw [hm2]; exact hL2, hq0, hq1, hs⟩
  case _ =>  -- normal, left
    have hc := contOf_ok_inv h
    obtain ⟨hm1, hm2, hm3, hm4, hq0, hq1, _, _, hs⟩ := move_cursor_ok_inv hc
    exact ⟨by rw [hm1]; exact hL1, by rw [hm2]; exact hL2, hq0, hq1, hs⟩
  case _ =>  -- normal, right
    have hc := contOf_ok_inv h
    obtain ⟨hm1, hm2, hm3, hm4, hq0, hq1, _, _, hs⟩ := move_cursor_ok_inv hc
    exact ⟨by rw [hm1]; exact hL1, by rw [hm2]; exact hL2, hq0, hq1, hs⟩
  case _ =>  -- normal, catch-all
    cases cont_inj h
    exact ⟨hL1, hL2, hr0, hr1, hsync⟩
  case _ =>  -- editing, enter
    have hc := contOf_ok_inv h
    by_cases hlast : a.get_messages.length - 1 ≤ a.target_row.toNat
    · obtain ⟨a0, heq, hget, hsame, hmode, himode, hq, hcz, hin⟩ :=
        new_line_of_last (by omega) hr0 hlast hr1
      rw [heq] at hc
      cases Except.ok.inj hc
      obtain ⟨hA, hB⟩ := lengths_ge_one hmode hsame hL1 hL2
        (by rw [hget]; simp)
      refine ⟨hA, hB, by omega, ?_, ?_⟩
      · rw [hq, hget]
        simp
        omega
      · rw [hin]
        unfold App.activeEntry
        rw [hget, hq]
        rw [show (a.target_row + 1).toNat = a.get_messages.length from by omega]
        rw [getD_concat_length]
    · rw [new_line_of_mid hr0 (by omega)] at hc
      cases Except.ok.inj hc
      exact ⟨hL1, hL2, hr0, hr1, rfl⟩
  case _ =>  -- editing, char c
    have hc := contOf_ok_inv h
    obtain ⟨hg0, hg1, hg2, hg3, he⟩ := add_char_ok_inv hc
    subst he
    exact inv_write_back hL1 hL2 hg2 hg3 rfl
  case _ =>  -- editing, backspace
    have hc := contOf_ok_inv h
    rcases remove_char_ok_inv hc with ⟨_, he⟩ | ⟨_, _, he⟩ | ⟨_, _, _, hg2, hg3, he⟩ <;> subst he
    · exact ⟨hL1, hL2, hr0, hr1, hsync⟩
    · exact ⟨hL1, hL2, hr0, hr1, hsync⟩
    · exact inv_write_back hL1 hL2 hg2 hg3 rfl
  case _ =>  -- editing, esc
    cases cont_inj h
    exact ⟨hL1, hL2, hr0, hr1, hsync⟩
  case _ =>  -- editing, up
    have hc := contOf_ok_inv h
    obtain ⟨hm1, hm2, hm3, hm4, hq0, hq1, _, _, hs⟩ := move_cursor_ok_inv hc
    exact ⟨by rw [hm1]; exact hL1, by rw [hm2]; exact hL2, hq0, hq1, hs⟩
  case _ =>  -- editing, down
    have hc := contOf_ok_inv h
    obtain ⟨hm1, hm2, hm3, hm4, hq0, hq1, _, _, hs⟩ := move_cursor_ok_inv hc
    exact ⟨by rw [hm1]; exact hL1, by rw [hm2]; exact hL2, hq0, hq1, hs⟩
  case _ =>  -- editing, left
    have hc := contOf_ok_inv h
    obtain ⟨hm1, hm2, hm3, hm4, hq0, hq1, _, _, hs⟩ := move_cursor_ok_inv hc
    exact ⟨by rw [hm1]; exact hL1, by rw [hm2]; exact hL2, hq0, hq1, hs⟩
  case _ =>  -- editing, right
    have hc := contOf_ok_inv h
    obtain ⟨hm1, hm2, hm3, hm4, hq0, hq1, _, _, hs⟩ := move_cursor_ok_inv hc
    exact ⟨by rw [hm1]; exact hL1, by rw [hm2]; exact hL2, hq0, hq1, hs⟩
  case _ =>  -- editing, other
    cases cont_inj h
    exact ⟨hL1, hL2, hr0, hr1, hsync⟩

theorem inv_reachable {a : App} (h : Reachable a) : Inv a := by
  induction h with
  | init => decide
  | step hr hd ih => exact inv_step ih hd

theorem reachable_runEvents {a : App} {ks : List KeyEvent} {a' : App} (h : Reachable a)
    (hrun : runEvents a ks = Except.ok (StepResult.cont a')) : Reachable a' := by
  induction ks generalizing a with
  | nil =>
    cases cont_inj hrun
    exact h
  | cons k ks ih =>
    unfold runEvents at hrun
    cases hd : dispatch a k with
    | ok r =>
      cases r with
      | cont b =>
        rw [hd] at hrun
        exact ih (Reachable.step h hd) hrun
      | quit =>
        rw [hd] at hrun
        exact absurd hrun (by simp)
    | error e =>
      rw [hd] at hrun
      exact absurd hrun (by simp)

/-! ### Status evolution: no entry ever reverts from Done to Todo -/

theorem statusSafe_of_active {a a' : App} (hm : a'.target_mode = a.target_mode)
    (hin : sameInactive a a')
    (hact : StatusSafe a.get_messages a'.get_messages) :
    StatusSafe a.messages a'.messages ∧ StatusSafe a.long_term_todo a'.long_term_todo := by
  cases htm : a.target_mode
  case daily =>
    rw [get_messages_daily htm, get_messages_daily (hm.trans htm)] at hact
    exact ⟨hact, by rw [hin.1 htm]; exact Relation.ReflTransGen.refl⟩
  case longTerm =>
    rw [get_messages_longTerm htm, get_messages_longTerm (hm.trans htm)] at hact
    exact ⟨by rw [hin.2 htm]; exact Relation.ReflTransGen.refl, hact⟩

theorem statusSafe_set_active {a : App} {X : List TodoData} {a' : App}
    (hm : a'.target_mode = a.target_mode)
    (hmsg : a'.messages = (a.set_messages X).messages)
    (hlong : a'.long_term_todo = (a.set_messages X).long_term_todo)
    (hact : StatusSafe a.get_messages X) :
    StatusSafe a.messages a'.messages ∧ StatusSafe a.long_term_todo a'.long_term_todo := by
  refine statusSafe_of_active hm ⟨?_, ?_⟩ ?_
  · intro htm
    rw [hlong]
    simp [htm]
  · intro htm
    rw [hmsg]
    simp [htm]
  · rw [get_messages_congr (by rw [hm]; simp) hmsg hlong, get_messages_set_messages]
    exact hact

/-- Every dispatched transition changes each list only through
status-safe shapes. -/
theorem statusSafe_dispatch {a : App} {k : KeyEvent} {a' : App} (hInv : Inv a)
    (h : dispatch a k = Except.ok (StepResult.cont a')) :
    StatusSafe a.messages a'.messages ∧ StatusSafe a.long_term_todo a'.long_term_todo := by
  obtain ⟨hL1, hL2, hr0, hr1, hsync⟩ := hInv
  unfold dispatch at h
  split at h
  all_goals split at h
  case _ =>  -- normal, char 'e'
    cases cont_inj h
    exact ⟨Relation.ReflTransGen.refl, Relation.ReflTransGen.refl⟩
  case _ =>  -- normal, char 'q'
    exact absurd h (by simp)
  case _ =>  -- normal, char 't'
    have hc := contOf_ok_inv h
    cases htm : a.target_mode
    case daily =>
      rw [change_target_mode_of_daily htm hL2] at hc
      cases Except.ok.inj hc
      exact ⟨Relation.ReflTransGen.refl, Relation.ReflTransGen.refl⟩
    case longTerm =>
      rw [change_target_mode_of_longTerm htm hL1] at hc
      cases Except.ok.inj hc
      exact ⟨Relation.ReflTransGen.refl, Relation.ReflTransGen.refl⟩
  case _ =>  -- normal, char 'r'
    have hc := contOf_ok_inv h
    obtain ⟨a0, heq, hget, hsame, hmode, himode, hq0, hq1, _, _, hs⟩ :=
      remove_message_ok hr0 hr1
    rw [heq] at hc
    cases Except.ok.inj hc
    refine (statusSafe_of_active hmode hsame ?_)
    rw [hget]
    split
    case isTrue hemp =>
      have hemp' : a.get_messages.eraseIdx a.target_row.toNat = [] := by simpa using hemp
      refine Relation.ReflTransGen.head
        (StatusSafeStep.removeAt a.get_messages a.target_row.toNat) ?_
      rw [hemp']
      exact Relation.ReflTransGen.single (StatusSafeStep.pushFresh [])
    case isFalse hemp =>
      exact Relation.ReflTransGen.single (StatusSafeStep.removeAt _ _)
  case _ =>  -- normal, char 'd'
    have hc := contOf_ok_inv h
    rw [set_message_status_ok _ hr0 hr1] at hc
    cases Except.ok.inj hc
    exact statusSafe_set_active (by simp) rfl rfl
      (Relation.ReflTransGen.single (StatusSafeStep.setDone _ _))
  case _ =>  -- normal, up
    have hc := contOf_ok_inv h
    obtain ⟨hm1, hm2, _, _, _, _, _, _, _⟩ := move_cursor_ok_inv hc
    rw [hm1, hm2]
    exact ⟨Relation.ReflTransGen.refl, Relation.ReflTransGen.refl⟩
  case _ =>  -- normal, down
    have hc := contOf_ok_inv h
    obtain ⟨hm1, hm2, _, _, _, _, _, _, _⟩ := move_cursor_ok_inv hc
    rw [hm1, hm2]
    exact ⟨Relation.ReflTransGen.refl, Relation.ReflTransGen.refl⟩
  case _ =>  -- normal, left
    have hc := contOf_ok_inv h
    obtain ⟨hm1, hm2, _, _, _, _, _, _, _⟩ := move_cursor_ok_inv hc
    rw [hm1, hm2]
    exact ⟨Relation.ReflTransGen.refl, Relation.ReflTransGen.refl⟩
  case _ =>  -- normal, right
    have hc := contOf_ok_inv h
    obtain ⟨hm1, hm2, _, _, _, _, _, _, _⟩ := move_cursor_ok_inv hc
    rw [hm1, hm2]
    exact ⟨Relation.ReflTransGen.refl, Relation.ReflTransGen.refl⟩
  case _ =>  -- normal, catch-all
    cases cont_inj h
    exact ⟨Relation.ReflTransGen.refl, Relation.ReflTransGen.refl⟩
  case _ =>  -- editing, enter
    have hc := contOf_ok_inv h
    by_cases hlast : a.get_messages.length - 1 ≤ a.target_row.toNat
    · obtain ⟨a0, heq, hget, hsame, hmode, himode, hq, hcz, hin⟩ :=
        new_line_of_last (by omega) hr0 hlast hr1
      rw [heq] at hc
      cases Except.ok.inj hc
      refine statusSafe_of_active hmode hsame ?_
      rw [hget]
      exact Relation.ReflTransGen.single (StatusSafeStep.pushFresh _)
    · rw [new_line_of_mid hr0 (by omega)] at hc
      cases Except.ok.inj hc
      exact ⟨Relation.ReflTransGen.refl, Relation.ReflTransGen.refl⟩
  case _ =>  -- editing, char c
    have hc := contOf_ok_inv h
    obtain ⟨hg0, hg1, hg2, hg3, he⟩ := add_char_ok_inv hc
    subst he
    exact statusSafe_set_active (by simp) rfl rfl
      (Relation.ReflTransGen.single (StatusSafeStep.setMessage _ _ _))
  case _ =>  -- editing, backspace
    have hc := contOf_ok_inv h
    rcases remove_char_ok_inv hc with ⟨_, he⟩ | ⟨_, _, he⟩ | ⟨_, _, _, hg2, hg3, he⟩ <;> subst he
    · exact ⟨Relation.ReflTransGen.refl, Relation.ReflTransGen.refl⟩
    · exact ⟨Relation.ReflTransGen.refl, Relation.ReflTransGen.refl⟩
    · exact statusSafe_set_active (by simp) rfl rfl
        (Relation.ReflTransGen.single (StatusSafeStep.setMessage _ _ _))
  case _ =>  -- editing, esc
    cases cont_inj h
    exact ⟨Relation.ReflTransGen.refl, Relation.ReflTransGen.refl⟩
  case _ =>  -- editing, up
    have hc := contOf_ok_inv h
    obtain ⟨hm1, hm2, _, _, _, _, _, _, _⟩ := move_cursor_ok_inv hc
    rw [hm1, hm2]
    exact ⟨Relation.ReflTransGen.refl, Relation.ReflTransGen.refl⟩
  case _ =>  -- editing, down
    have hc := contOf_ok_inv h
    obtain ⟨hm1, hm2, _, _, _, _, _, _, _⟩ := move_cursor_ok_inv hc
    rw [hm1, hm2]
    exact ⟨Relation.ReflTransGen.refl, Relation.ReflTransGen.refl⟩
  case _ =>  -- editing, left
    have hc := contOf_ok_inv h
    obtain ⟨hm1, hm2, _, _, _, _, _, _, _⟩ := move_cursor_ok_inv hc
    rw [hm1, hm2]
    exact ⟨Relation.ReflTransGen.refl, Relation.ReflTransGen.refl⟩
  case _ =>  -- editing, right
    have hc := contOf_ok_inv h
    obtain ⟨hm1, hm2, _, _, _, _, _, _, _⟩ := move_cursor_ok_inv hc
    rw [hm1, hm2]
    exact ⟨Relation.ReflTransGen.refl, Relation.ReflTransGen.refl⟩
  case _ =>  -- editing, other
    cases cont_inj h
    exact ⟨Relation.ReflTransGen.refl, Relation.ReflTransGen.refl⟩

/-! ### The claims -/

/-- C1: for every state reachable from the initial state, both the daily and
the long-term list hold at least one entry; in particular, removing the sole
entry of the active list leaves that list with exactly one fresh empty
entry. -/
theorem lists_never_empty :
    (∀ a : App, Reachable a → 1 ≤ a.messages.length ∧ 1 ≤ a.long_term_todo.length) ∧
    (∀ a : App, 0 ≤ a.target_row → a.target_row.toNat < a.get_messages.length →
      a.get_messages.length = 1 →
      ∃ a', a.remove_message = Except.ok a' ∧ a'.target_mode = a.target_mode ∧
        a'.get_messages = [{ message := [], status := Status.todo }]) := by
  constructor
  · intro a h
    have hInv := inv_reachable h
    exact ⟨hInv.1, hInv.2.1⟩
  · intro a h0 h1 hone
    obtain ⟨a', heq, hget, hsame, hmode, _, _, _, _, _, _⟩ := remove_message_ok h0 h1
    refine ⟨a', heq, hmode, ?_⟩
    rw [hget, if_pos ?_]
    have hz : (a.get_messages.eraseIdx a.target_row.toNat).length = 0 := by
      rw [List.length_eraseIdx_of_lt h1, hone]
    rw [List.eq_nil_of_length_eq_zero hz]
    rfl

/-- C1 witness at the initial state. -/
theorem lists_never_empty_witness :
    (1 ≤ App.default.messages.length ∧ 1 ≤ App.default.long_term_todo.length) ∧
    App.default.get_messages = [{ message := [], status := Status.todo }] := by
  obtain ⟨a', heq, hmode, hget⟩ :=
    lists_never_empty.2 App.default (by decide) (by decide) (by decide)
  have he : a' = App.default := by
    have h2 : App.default.remove_message = Except.ok App.default := by decide
    rw [heq] at h2
    exact Except.ok.inj h2
  subst he
  exact ⟨lists_never_empty.1 App.default Reachable.init, hget⟩

/-- C2 (code bug): the claimed column invariant
`0 ≤ column ≤ max(len(active entry text) - 1, 0)` fails on a reachable
state: after editing "ab", escaping and switching lists,
`change_target_mode` keeps the stale column 2 although the newly active
entry is empty (bound 0).  The row half of the invariant does hold there. -/
theorem column_invariant_violated :
    runEvents App.default staleColumnEvents = Except.ok (StepResult.cont staleColumnState) ∧
    Reachable staleColumnState ∧
    (0 ≤ staleColumnState.target_row ∧
      staleColumnState.target_row.toNat < staleColumnState.get_messages.length) ∧
    ¬(staleColumnState.target_column ≤
        max ((staleColumnState.activeEntry.message.length : Int) - 1) 0) := by
  have hrun : runEvents App.default staleColumnEvents =
      Except.ok (StepResult.cont staleColumnState) := by decide
  exact ⟨hrun, reachable_runEvents Reachable.init hrun, by decide, by decide⟩

/-- C3: `commit_line` (Enter in Editing mode, `new_line` in the source): on
the last row it appends one fresh empty entry, advances the row, resets the
column, reloads the buffer (now empty) and returns to Normal mode; on a
non-last row lists and cursor are untouched, the buffer is reloaded from the
entry at the row, and the mode becomes Normal. -/
theorem commit_line_spec (a : App) (h0 : 0 ≤ a.target_row)
    (hr : a.target_row.toNat < a.get_messages.length) :
    (a.target_row.toNat = a.get_messages.length - 1 →
      ∃ a', a.new_line = Except.ok a' ∧
        a'.get_messages = a.get_messages ++ [{ message := [], status := Status.todo }] ∧
        sameInactive a a' ∧ a'.target_mode = a.target_mode ∧
        a'.target_row = a.target_row + 1 ∧ a'.target_column = 0 ∧
        a'.input = [] ∧ a'.input_mode = InputMode.normal) ∧
    (a.target_row.toNat < a.get_messages.length - 1 →
      a.new_line = Except.ok
        { a with input := a.activeEntry.message, input_mode := InputMode.normal }) := by
  constructor
  · intro hlast
    obtain ⟨a', heq, hget, hsame, hmode, himode, hq, hcz, hin⟩ :=
      new_line_of_last (by omega) h0 (by omega) hr
    exact ⟨a', heq, hget, hsame, hmode, hq, hcz, hin, himode⟩
  · intro hmid
    exact new_line_of_mid h0 hmid

/-- C3 witness: committing the sole (hence last) line of the initial state. -/
theorem commit_line_spec_witness :
    App.default.new_line = Except.ok defaultCommitted ∧
    defaultCommitted.get_messages =
      App.default.get_messages ++ [{ message := [], status := Status.todo }] ∧
    defaultCommitted.target_row = 1 ∧ defaultCommitted.target_column = 0 ∧
    defaultCommitted.input_mode = InputMode.normal := by
  obtain ⟨a', heq, hget, hsame, hmode, hq, hcz, hin, himode⟩ :=
    (commit_line_spec App.default (by decide) (by decide)).1 (by decide)
  have he : a' = defaultCommitted := by
    have h2 : App.default.new_line = Except.ok defaultCommitted := by decide
    rw [heq] at h2
    exact Except.ok.inj h2
  subst he
  exact ⟨heq, hget, hq, hcz, himode⟩

/-- C4 counterexample: in Editing mode the `t` key is not a no-op — it is
caught by the character arm and inserted into the buffer. -/
theorem switch_key_editing_not_noop :
    dispatch editDefault (KeyEvent.char 't') = Except.ok (StepResult.cont editAfterT) ∧
    editAfterT.input ≠ editDefault.input ∧
    editAfterT ≠ editDefault := by
  exact ⟨by decide, by decide, by decide⟩

/-- C4 (amended): in Editing mode `t` does not switch lists — the selector
and the mode are unchanged — but it is treated as an ordinary character and
inserted into the edit buffer at the cursor column, advancing the column. -/
theorem switch_key_editing_inserts (a : App) (hm : a.input_mode = InputMode.editing)
    (hc0 : 0 ≤ a.target_column) (hc1 : a.target_column.toNat ≤ a.input.length)
    (h0 : 0 ≤ a.target_row) (h1 : a.target_row.toNat < a.get_messages.length) :
    dispatch a (KeyEvent.char 't') = Except.ok (StepResult.cont
      { a.set_messages (a.get_messages.set a.target_row.toNat
          { a.activeEntry with message := a.input.insertIdx a.target_column.toNat 't' }) with
        input := a.input.insertIdx a.target_column.toNat 't'
        target_column := a.target_column + 1 }) ∧
    (∀ b : App, dispatch a (KeyEvent.char 't') = Except.ok (StepResult.cont b) →
      b.target_mode = a.target_mode ∧ b.input_mode = InputMode.editing) := by
  have hd : dispatch a (KeyEvent.char 't') = contOf (a.add_char 't') := by
    unfold dispatch
    rw [hm]
  constructor
  · rw [hd, add_char_ok _ hc0 hc1 h0 h1]
    rfl
  · intro b hb
    rw [hd, add_char_ok _ hc0 hc1 h0 h1] at hb
    cases cont_inj hb
    refine ⟨by simp, ?_⟩
    simpa using hm

/-- C4 witness: pressing `t` right after entering edit mode on the initial
state. -/
theorem switch_key_editing_inserts_witness :
    dispatch editDefault (KeyEvent.char 't') = Except.ok (StepResult.cont editAfterT) ∧
    editAfterT.target_mode = editDefault.target_mode ∧
    editAfterT.input_mode = InputMode.editing := by
  have h := (switch_key_editing_inserts editDefault rfl (by decide) (by decide)
    (by decide) (by decide))
  refine ⟨?_, ?_, ?_⟩
  · rw [h.1]
    decide
  · exact (h.2 editAfterT (by decide)).1
  · exact (h.2 editAfterT (by decide)).2

/-- C5: in Editing mode, Backspace (`delete_char` / `remove_char`) is a
no-op when the buffer is empty or the column is at most 0; otherwise it
removes the character at offset `column - 1`, writes the buffer back into
the active entry at the cursor row, and decrements the column. -/
theorem delete_char_spec (a : App) (hm : a.input_mode = InputMode.editing) :
    (a.input = [] → dispatch a KeyEvent.backspace = Except.ok (StepResult.cont a)) ∧
    (a.target_column ≤ 0 → dispatch a KeyEvent.backspace = Except.ok (StepResult.cont a)) ∧
    (a.input ≠ [] → 0 < a.target_column → (a.target_column - 1).toNat < a.input.length →
      0 ≤ a.target_row → a.target_row.toNat < a.get_messages.length →
      dispatch a KeyEvent.backspace = Except.ok (StepResult.cont
        { a.set_messages (a.get_messages.set a.target_row.toNat
            { a.activeEntry with message := a.input.eraseIdx (a.target_column - 1).toNat }) with
          input := a.input.eraseIdx (a.target_column - 1).toNat
          target_column := a.target_column - 1 })) := by
  have hd : dispatch a KeyEvent.backspace = contOf a.remove_char := by
    unfold dispatch
    rw [hm]
  refine ⟨?_, ?_, ?_⟩
  · intro he
    rw [hd, remove_char_of_empty he]
    rfl
  · intro hc
    rw [hd, remove_char_of_colzero hc]
    rfl
  · intro h1 h2 h3 h4 h5
    rw [hd, remove_char_ok h1 h2 h3 h4 h5]
    rfl

/-- C5 witness: Backspace on text "abc" with the column at 3 yields "ab"
with the column at 2. -/
theorem delete_char_spec_witness :
    dispatch abcState KeyEvent.backspace = Except.ok (StepResult.cont abState) ∧
    abState.input = ['a', 'b'] ∧ abState.target_column = 2 ∧
    abState.messages = [{ message := ['a', 'b'], status := Status.todo }] := by
  have h := (delete_char_spec abcState rfl).2.2 (by decide) (by decide) (by decide)
    (by decide) (by decide)
  refine ⟨?_, by decide, by decide, by decide⟩
  rw [h]
  decide

/-- C6: from the initial state, pressing `e`, typing "buy milk" and pressing
Enter leaves the daily list `["buy milk", ""]`, the cursor at row 1 and
column 0, and the mode Normal. -/
theorem scenario1_run :
    runEvents App.default scenario1Events = Except.ok (StepResult.cont scenario1Result) ∧
    scenario1Result.messages =
      [{ message := "buy milk".data, status := Status.todo },
       { message := [], status := Status.todo }] ∧
    scenario1Result.target_row = 1 ∧ scenario1Result.target_column = 0 ∧
    scenario1Result.input_mode = InputMode.normal := by
  exact ⟨by decide, rfl, rfl, rfl, rfl⟩

/-- C7: in every reachable state the edit buffer equals the text of the
active list's entry at the cursor row. -/
theorem edit_buffer_synced (a : App) (h : Reachable a) :
    a.input = a.activeEntry.message :=
  (inv_reachable h).2.2.2.2

/-- C7 witness at the initial state. -/
theorem edit_buffer_synced_witness :
    App.default.input = App.default.activeEntry.message :=
  edit_buffer_synced App.default Reachable.init

/-- C8: switching the active list twice restores the original selector,
leaves both lists untouched, and resets the row to 0. -/
theorem switch_twice_roundtrip (a : App) (h1 : 1 ≤ a.messages.length)
    (h2 : 1 ≤ a.long_term_todo.length) :
    ∃ a' a'', a.change_target_mode = Except.ok a' ∧
      a'.change_target_mode = Except.ok a'' ∧
      a''.target_mode = a.target_mode ∧ a''.target_row = 0 ∧
      a''.messages = a.messages ∧ a''.long_term_todo = a.long_term_todo := by
  cases htm : a.target_mode
  case daily =>
    exact ⟨_, _, change_target_mode_of_daily htm h2,
      change_target_mode_of_longTerm rfl h1, rfl, rfl, rfl, rfl⟩
  case longTerm =>
    exact ⟨_, _, change_target_mode_of_longTerm htm h1,
      change_target_mode_of_daily rfl h2, rfl, rfl, rfl, rfl⟩

/-- C8 witness: a double switch from the initial state passes through the
long-term selector and returns to the initial state. -/
theorem switch_twice_roundtrip_witness :
    App.default.change_target_mode = Except.ok defaultLongTerm ∧
    defaultLongTerm.change_target_mode = Except.ok App.default ∧
    App.default.target_row = 0 := by
  obtain ⟨a', a'', hA, hB, hC, hD, hE, hF⟩ :=
    switch_twice_roundtrip App.default (by decide) (by decide)
  have e1 : a' = defaultLongTerm := by
    have h2 : App.default.change_target_mode = Except.ok defaultLongTerm := by decide
    rw [hA] at h2
    exact Except.ok.inj h2
  subst e1
  have e2 : a'' = App.default := by
    have h2 : defaultLongTerm.change_target_mode = Except.ok App.default := by decide
    rw [hB] at h2
    exact Except.ok.inj h2
  subst e2
  exact ⟨hA, hB, hD⟩

/-- C9 (code bug): the claim that no core operation terminates the process
fails: after the stale-column run (edit "ab", escape, switch lists),
re-entering edit mode and typing one character makes `add_char` call
`String::insert` past the end of the empty buffer, an index-out-of-range
panic that aborts the process.  The panicking state is reachable. -/
theorem add_char_panics_on_reachable_state :
    runEvents App.default panicEvents = Except.error Err.indexOutOfRange ∧
    Reachable { staleColumnState with input_mode := InputMode.editing } ∧
    ({ staleColumnState with input_mode := InputMode.editing } : App).add_char 'x' =
      Except.error Err.indexOutOfRange := by
  refine ⟨by decide, ?_, by decide⟩
  have hrun : runEvents App.default (staleColumnEvents ++ [KeyEvent.char 'e']) =
      Except.ok (StepResult.cont { staleColumnState with input_mode := InputMode.editing }) := by
    decide
  exact reachable_runEvents Reachable.init hrun

/-- C10: along every reachable transition both lists evolve only through
status-safe shapes — message edits that keep the status, fresh `Todo`
pushes, removals, and setting a status to `Done` — so no surviving entry's
status ever changes from `Done` back to `Todo`. -/
theorem statuses_never_revert (a : App) (k : KeyEvent) (a' : App) (hr : Reachable a)
    (h : dispatch a k = Except.ok (StepResult.cont a')) :
    StatusSafe a.messages a'.messages ∧ StatusSafe a.long_term_todo a'.long_term_todo :=
  statusSafe_dispatch (inv_reachable hr) h

/-- C10 witness: the `d` key on the initial state sets the sole entry to
`Done`, a status-safe transition. -/
theorem statuses_never_revert_witness :
    StatusSafe App.default.messages defaultDone.messages ∧
    StatusSafe App.default.long_term_todo defaultDone.long_term_todo :=
  statuses_never_revert App.default (KeyEvent.char 'd') defaultDone Reachable.init (by decide)

end TodoRust
